import Mathlib

/-!
# Blog-post service: store / cache / index consistency

A shallow embedding of the Go sources

* `api/models/post.go`          (the request and row types),
* `api/cache/redis_cache.go`    (look-aside cache: `Get`, `Set`, `Del`),
* `api/search/es_client.go`     (`IndexDoc`),
* `api/repository/post_repo.go` (`CreateWithLogTx`, `GetByID`, `Update`),
* `api/main.go`                 (the `POST /posts`, `GET /posts/:id` and
  `PUT /posts/:id` handlers).

The three collaborators (PostgreSQL, Redis, Elasticsearch) are state components
of one `World`; every call made to one of them is appended to `World.trace`,
and every call can be made to fail through the `Faults` of the request.
Go `int` is `Int` (range checks are explicit where the code has them), Go
`[]string` is `List String` (a nil slice and an empty slice are identified),
a `time.Time` is a natural-number instant; the clock of a request counts
milliseconds.
-/

namespace Blog

/-! ## models/post.go -/

/-- Row of table `posts`, `models.Post`. -/
structure Post where
  ID : Int
  Title : String
  Content : String
  Tags : List String
  CreatedAt : Nat
deriving DecidableEq, Repr

/-- Body of `POST /posts`, `models.CreatePostReq`. -/
structure CreatePostReq where
  Title : String
  Content : String
  Tags : List String
deriving DecidableEq, Repr

/-- Body of `PUT /posts/:id`, `models.UpdatePostReq`: a nil pointer is `none`. -/
structure UpdatePostReq where
  Title : Option String
  Content : Option String
  Tags : Option (List String)
deriving DecidableEq, Repr

/-- Row of table `activity_logs` as written by `CreateWithLogTx`. -/
structure ActivityLog where
  action : String
  postID : Int
deriving DecidableEq, Repr

/-! ## Errors, calls and faults -/

/-- The Go `error` values that reach the handlers. -/
inductive Err where
  /-- The body was rejected by `c.ShouldBindJSON` (malformed JSON or a `binding:"required"` field left at its zero value). -/
  | bind
  /-- The error `errors.New("nothing to update")`. -/
  | nothingToUpdate
  /-- The error `pgx.ErrNoRows`, returned by `row.Scan` when the SELECT matched no row. -/
  | noRows
  /-- Any other failure reported by the database driver for the named call. -/
  | store (op : String)
  /-- The error `redis.Nil`: the key is absent or expired. -/
  | redisNil
  /-- Any other failure of a Redis call. -/
  | cache
  /-- Failure of the Elasticsearch transport. -/
  | index
deriving DecidableEq, Repr

/-- Text of `err.Error()`. -/
def Err.Error : Err → String
  | .bind => "invalid request body"
  | .nothingToUpdate => "nothing to update"
  | .noRows => "no rows in result set"
  | .store op => "store: " ++ op
  | .redisNil => "redis: nil"
  | .cache => "redis: failure"
  | .index => "es: failure"

/-- Value bound to a placeholder `$n` of a statement (`[]any` in the source). -/
inductive SqlArg where
  | text (s : String)
  | textArr (l : List String)
  | int (i : Int)
deriving DecidableEq, Repr

/-- Document sent to the index by `IndexDoc` (the `map[string]any` of the handlers). -/
structure IndexDocument where
  id : Int
  title : String
  content : String
  tags : List String
deriving DecidableEq, Repr

/-- One call made to a collaborator. -/
inductive Call where
  | storeBegin
  | storeInsertPost (title content : String) (tags : List String)
  | storeInsertLog (action : String) (postID : Int)
  | storeCommit
  | storeRollback
  | storeSelect (id : Int)
  | storeExec (sql : String) (args : List SqlArg)
  | cacheGet (key : String)
  | cacheSet (key val : String) (ttl : Int)
  | cacheDel (key : String)
  | indexDoc (docID : String) (doc : IndexDocument)
deriving DecidableEq, Repr

/-- Which Store calls of the request fail with a driver error. -/
structure StoreFaults where
  begin : Bool
  insertPost : Bool
  insertLog : Bool
  commit : Bool
  select : Bool
  exec : Bool
deriving DecidableEq, Repr

/-- Which calls to the derived stores (Cache, Index) of the request fail. -/
structure DerivedFaults where
  cacheGet : Bool
  cacheSet : Bool
  cacheDel : Bool
  indexDoc : Bool
deriving DecidableEq, Repr

/-- Failure plan of one request. -/
structure Faults where
  store : StoreFaults
  derived : DerivedFaults
deriving DecidableEq, Repr

/-- No call fails. -/
def Faults.none : Faults :=
  ⟨⟨false, false, false, false, false, false⟩, ⟨false, false, false, false⟩⟩

/-! ## The world: Store, Cache, Index -/

/-- Relational store: the two tables and the sequence behind `posts.id`. -/
structure Store where
  posts : List Post
  logs : List ActivityLog
  nextID : Int
deriving DecidableEq, Repr

/-- One Redis key with its value and the instant, in milliseconds, at which it
expires (`none`: no expiry). -/
structure CacheEntry where
  key : String
  val : String
  expires : Option Nat
deriving DecidableEq, Repr

/-- Store, Cache, Index and the calls made so far. -/
structure World where
  db : Store
  cache : List CacheEntry
  index : List (String × IndexDocument)
  trace : List Call
deriving DecidableEq, Repr

/-- JSON codec for `models.Post` (`encoding/json`): `marshal` is `json.Marshal`
(`none` when it reports an error), `unmarshal` is `json.Unmarshal` into a `Post`. -/
structure Codec where
  marshal : Post → Option String
  unmarshal : String → Option Post

/-- What a request sees besides the world: the clock in milliseconds, the
configured `CACHE_TTL_SECONDS` (a Go `int`), the JSON codec and the failures of
its calls. -/
structure Env where
  now : Nat
  ttlSeconds : Int
  json : Codec
  fail : Faults

/-! ## strconv.Atoi -/

/-- Value of a decimal digit. -/
def digitVal (c : Char) : Option Nat :=
  if 48 ≤ c.toNat ∧ c.toNat ≤ 57 then some (c.toNat - 48) else none

/-- Reads a run of decimal digits to the end of the input. -/
def readDigits : List Char → Nat → Option Nat
  | [], acc => some acc
  | c :: cs, acc =>
    match digitVal c with
    | some d => readDigits cs (acc * 10 + d)
    | none => none

/-- Function `strconv.Atoi` on a 64-bit platform: an optional sign, at least one decimal
digit, nothing else, and the value within the range of `int`. -/
def Atoi (s : String) : Option Int :=
  let body : Bool × List Char :=
    match s.data with
    | '-' :: cs => (true, cs)
    | '+' :: cs => (false, cs)
    | cs => (false, cs)
  if body.2 = [] then none
  else
    match readDigits body.2 0 with
    | none => none
    | some n =>
      if body.1 then (if n ≤ 2 ^ 63 then some (-(n : Int)) else none)
      else (if n < 2 ^ 63 then some (n : Int) else none)

/-! ## The Store (PostgreSQL) -/

/-- Appends a call to the trace. -/
def World.log (w : World) (c : Call) : World :=
  { w with trace := w.trace ++ [c] }

/-- Modelled from the spec: the schema of table `posts` is not among the sources.
The row inserted by `INSERT INTO posts(title, content, tags) ... RETURNING id`
gets its `id` from the Store (the next value of a sequence) and its
`created_at` is set once, at creation. -/
def insertPostRow (now : Nat) (title content : String) (tags : List String) (db : Store) :
    Int × Store :=
  (db.nextID,
   { db with
     posts := db.posts ++ [⟨db.nextID, title, content, tags, now⟩]
     nextID := db.nextID + 1 })

/-- Effect of `INSERT INTO activity_logs(action, post_id) VALUES ($1,$2)`. -/
def insertLogRow (action : String) (postID : Int) (db : Store) : Store :=
  { db with logs := db.logs ++ [⟨action, postID⟩] }

/-- Effect of rolling back a transaction that worked on `tx`: the tables are
those of `db`; a value drawn from the sequence is not given back. -/
def rolledBack (db tx : Store) : Store :=
  { db with nextID := tx.nextID }

/-- Columns of `posts` that the UPDATE of `PostRepo.Update` can assign. -/
inductive Column where
  | title
  | content
  | tags
deriving DecidableEq, Repr

/-- Name of a column in SQL text. -/
def Column.name : Column → String
  | .title => "title"
  | .content => "content"
  | .tags => "tags"

/-- Drops `lit` from the front of the input; `none` if the input does not start with it. -/
def dropLit : List Char → List Char → Option (List Char)
  | [], s => some s
  | _ :: _, [] => none
  | c :: cs, d :: ds => if c = d then dropLit cs ds else none

/-- Reads digits from the front of the input, returning the number and the rest. -/
def readNumAux : List Char → Nat → Nat × List Char
  | [], acc => (acc, [])
  | c :: cs, acc =>
    match digitVal c with
    | some d => readNumAux cs (acc * 10 + d)
    | none => (acc, c :: cs)

/-- Reads a placeholder number (at least one digit). -/
def readNum (s : List Char) : Option (Nat × List Char) :=
  match s with
  | [] => none
  | c :: _ => if (digitVal c).isSome then some (readNumAux s 0) else none

/-- Reads a column name. -/
def readColumn (s : List Char) : Option (Column × List Char) :=
  match dropLit "title".data s with
  | some r => some (.title, r)
  | none =>
    match dropLit "content".data s with
    | some r => some (.content, r)
    | none =>
      match dropLit "tags".data s with
      | some r => some (.tags, r)
      | none => none

/-- Reads one assignment `column=$n`. -/
def readAssign (s : List Char) : Option ((Column × Nat) × List Char) :=
  match readColumn s with
  | none => none
  | some (col, r) =>
    match dropLit "=$".data r with
    | none => none
    | some r1 =>
      match readNum r1 with
      | none => none
      | some (n, r2) => some ((col, n), r2)

/-- Reads a comma-separated, non-empty list of assignments. -/
def readAssigns : Nat → List Char → Option (List (Column × Nat) × List Char)
  | 0, _ => none
  | fuel + 1, s =>
    match readAssign s with
    | none => none
    | some (a, ',' :: r) =>
      match readAssigns fuel r with
      | none => none
      | some (as, r1) => some (a :: as, r1)
    | some (a, r) => some ([a], r)

/-- Reads a statement `UPDATE posts SET c=$i,... WHERE id=$k`: the assignments and `k`. -/
def parseUpdate (sql : String) : Option (List (Column × Nat) × Nat) :=
  match dropLit "UPDATE posts SET ".data sql.data with
  | none => none
  | some r =>
    match readAssigns sql.length r with
    | none => none
    | some (as, r1) =>
      match dropLit " WHERE id=$".data r1 with
      | none => none
      | some r2 =>
        match readNum r2 with
        | some (k, []) => some (as, k)
        | _ => none

/-- Argument bound to placeholder `$n`. -/
def placeholder (args : List SqlArg) (n : Nat) : Option SqlArg :=
  if n = 0 then none else args.get? (n - 1)

/-- A column together with the value assigned to it. -/
inductive Assign where
  | title (s : String)
  | content (s : String)
  | tags (l : List String)
deriving DecidableEq, Repr

/-- Binds the placeholder of one assignment; the value must have the column's type. -/
def resolve (args : List SqlArg) : Column × Nat → Option Assign
  | (.title, n) =>
    match placeholder args n with
    | some (.text s) => some (.title s)
    | _ => none
  | (.content, n) =>
    match placeholder args n with
    | some (.text s) => some (.content s)
    | _ => none
  | (.tags, n) =>
    match placeholder args n with
    | some (.textArr l) => some (.tags l)
    | _ => none

/-- Binds the placeholders of all assignments. -/
def resolveAll (args : List SqlArg) : List (Column × Nat) → Option (List Assign)
  | [] => some []
  | a :: as =>
    match resolve args a, resolveAll args as with
    | some x, some xs => some (x :: xs)
    | _, _ => none

/-- Applies one assignment to a row. -/
def Assign.apply : Assign → Post → Post
  | .title s, p => { p with Title := s }
  | .content s, p => { p with Content := s }
  | .tags l, p => { p with Tags := l }

/-- Applies the assignments to a row, left to right. -/
def applyAll (as : List Assign) (p : Post) : Post :=
  as.foldl (fun q a => a.apply q) p

/-- Effect of an `UPDATE posts SET ... WHERE id=$k` statement with its arguments;
`none` when the text is not such a statement or an argument does not fit. -/
def execUpdate (sql : String) (args : List SqlArg) (db : Store) : Option Store :=
  match parseUpdate sql with
  | none => none
  | some (cols, k) =>
    match resolveAll args cols, placeholder args k with
    | some as, some (.int id) =>
      some { db with posts := db.posts.map (fun p => if p.ID = id then applyAll as p else p) }
    | _, _ => none

/-- The call `r.DB.Exec(ctx, sql, args...)`. -/
def dbExec (fl : Faults) (sql : String) (args : List SqlArg) (w : World) :
    Except Err Unit × World :=
  let w1 := w.log (.storeExec sql args)
  if fl.store.exec then (.error (.store "exec"), w1)
  else
    match execUpdate sql args w.db with
    | none => (.error (.store "exec"), w1)
    | some db1 => (.ok (), { w1 with db := db1 })

/-! ## repository/post_repo.go -/

/-- Method `PostRepo.GetByID`: the first row of `posts` with the id, or `pgx.ErrNoRows`. -/
def PostRepo.GetByID (fl : Faults) (id : Int) (w : World) : Except Err Post × World :=
  let w1 := w.log (.storeSelect id)
  if fl.store.select then (.error (.store "select"), w1)
  else
    match w.db.posts.find? (fun p => decide (p.ID = id)) with
    | some p => (.ok p, w1)
    | none => (.error .noRows, w1)

/-- Method `PostRepo.CreateWithLogTx`: both inserts run in one transaction, whose
working copy `tx` reaches the Store only through `Commit`; the deferred
`Rollback` runs on every exit. -/
def PostRepo.CreateWithLogTx (env : Env) (req : CreatePostReq) (w : World) :
    Except Err Post × World :=
  let w0 := w.log .storeBegin
  if env.fail.store.begin then (.error (.store "begin"), w0)
  else
    let w1 := w0.log (.storeInsertPost req.Title req.Content req.Tags)
    if env.fail.store.insertPost then
      (.error (.store "insert posts"), w1.log .storeRollback)
    else
      let ins := insertPostRow env.now req.Title req.Content req.Tags w.db
      let id := ins.1
      let w2 := w1.log (.storeInsertLog "new_post" id)
      if env.fail.store.insertLog then
        (.error (.store "insert activity_logs"),
          { w2 with db := rolledBack w.db ins.2 }.log .storeRollback)
      else
        let tx := insertLogRow "new_post" id ins.2
        let w3 := w2.log .storeCommit
        if env.fail.store.commit then
          (.error (.store "commit"), { w3 with db := rolledBack w.db tx }.log .storeRollback)
        else
          let r := PostRepo.GetByID env.fail id { w3 with db := tx }
          (r.1, r.2.log .storeRollback)

/-- The first half of `PostRepo.Update`: the text of the SET clause with its
trailing comma, the arguments and the number of the next placeholder. -/
def updateSet (req : UpdatePostReq) : String × List SqlArg × Nat :=
  let s0 : String × List SqlArg × Nat := ("", [], 1)
  let s1 :=
    match req.Title with
    | some t => (s0.1 ++ ("title=$" ++ toString s0.2.2 ++ ","), s0.2.1 ++ [SqlArg.text t], s0.2.2 + 1)
    | none => s0
  let s2 :=
    match req.Content with
    | some c => (s1.1 ++ ("content=$" ++ toString s1.2.2 ++ ","), s1.2.1 ++ [SqlArg.text c], s1.2.2 + 1)
    | none => s1
  match req.Tags with
  | some l => (s2.1 ++ ("tags=$" ++ toString s2.2.2 ++ ","), s2.2.1 ++ [SqlArg.textArr l], s2.2.2 + 1)
  | none => s2

/-- Method `PostRepo.Update`. -/
def PostRepo.Update (fl : Faults) (id : Int) (req : UpdatePostReq) (w : World) :
    Except Err Post × World :=
  let b := updateSet req
  if b.1 = "" then (.error .nothingToUpdate, w)
  else
    let set := String.mk b.1.data.dropLast
    let args := b.2.1 ++ [SqlArg.int id]
    let r := dbExec fl ("UPDATE posts SET " ++ set ++ " WHERE id=$" ++ toString b.2.2) args w
    match r.1 with
    | .error e => (.error e, r.2)
    | .ok _ => PostRepo.GetByID fl id r.2

/-! ## cache/redis_cache.go -/

/-- An entry is live while its expiry instant has not been reached. -/
def CacheEntry.live (now : Nat) (e : CacheEntry) : Bool :=
  match e.expires with
  | none => true
  | some t => decide (now < t)

/-- Wraps an integer into the range of `int64`. -/
def wrap64 (x : Int) : Int :=
  (x + 9223372036854775808) % 18446744073709551616 - 9223372036854775808

/-- The cache client `cache.RedisCache`; `TTL` is a `time.Duration`, a number of
nanoseconds held in an `int64`. -/
structure RedisCache where
  TTL : Int
deriving DecidableEq, Repr

/-- Function `cache.New`: `TTL` is `time.Duration(ttlSeconds) * time.Second`, a
product computed in `int64`. -/
def cache.New (ttlSeconds : Int) : RedisCache :=
  ⟨wrap64 (ttlSeconds * 1000000000)⟩

/-- Lifetime in milliseconds that the Redis client sends for a positive
expiration `d` in nanoseconds: `PX d/time.Millisecond` (at least 1) when `d` is
below a second or not a whole number of seconds, `EX d/time.Second` otherwise. -/
def lifetimeMs (d : Int) : Nat :=
  if d < 1000000000 ∨ d % 1000000000 ≠ 0 then
    (if d < 1000000 then 1 else (d / 1000000).toNat)
  else (d / 1000000000).toNat * 1000

/-- Expiry of a key written at `now` with expiration `d`: a positive `d` sets
the expiry, `redis.KeepTTL` (-1) keeps the expiry `old` the key had, any other
value sets none. -/
def expiry (now : Nat) (d : Int) (old : Option Nat) : Option Nat :=
  if 0 < d then some (now + lifetimeMs d)
  else if d = -1 then old
  else none

/-- Method `RedisCache.Get`: the value of a live key, `redis.Nil` otherwise. -/
def RedisCache.Get (env : Env) (key : String) (w : World) : Except Err String × World :=
  let w1 := w.log (.cacheGet key)
  if env.fail.derived.cacheGet then (.error .cache, w1)
  else
    match w.cache.find? (fun e => decide (e.key = key) && e.live env.now) with
    | some e => (.ok e.val, w1)
    | none => (.error .redisNil, w1)

/-- Method `RedisCache.Set`: `r.Cli.Set(ctx, key, val, r.TTL)`, with `r` the
client made by `cache.New` from the configured seconds. -/
def RedisCache.Set (env : Env) (key val : String) (w : World) : Except Err Unit × World :=
  let r := cache.New env.ttlSeconds
  let w1 := w.log (.cacheSet key val r.TTL)
  if env.fail.derived.cacheSet then (.error .cache, w1)
  else
    let old :=
      (w.cache.find? (fun e => decide (e.key = key) && e.live env.now)).bind CacheEntry.expires
    (.ok (),
      { w1 with
        cache := ⟨key, val, expiry env.now r.TTL old⟩ ::
          w1.cache.filter (fun e => !decide (e.key = key)) })

/-- Method `RedisCache.Del`: removes the key. -/
def RedisCache.Del (env : Env) (key : String) (w : World) : Except Err Unit × World :=
  let w1 := w.log (.cacheDel key)
  if env.fail.derived.cacheDel then (.error .cache, w1)
  else (.ok (), { w1 with cache := w1.cache.filter (fun e => !decide (e.key = key)) })

/-! ## search/es_client.go -/

/-- Method `ES.IndexDoc`: replaces the document whose id is the decimal form of `id`. -/
def ES.IndexDoc (env : Env) (id : Int) (doc : IndexDocument) (w : World) :
    Except Err Unit × World :=
  let docID := toString id
  let w1 := w.log (.indexDoc docID doc)
  if env.fail.derived.indexDoc then (.error .index, w1)
  else
    (.ok (),
      { w1 with
        index := (docID, doc) :: w1.index.filter (fun d => !decide (d.1 = docID)) })

/-! ## main.go: the handlers -/

/-- Body of a JSON response. -/
inductive Body where
  /-- The object `gin.H{"error": msg}`. -/
  | error (msg : String)
  /-- A post. -/
  | post (p : Post)
  /-- The object `gin.H{"cached": cached, "data": data}`. -/
  | read (cached : Bool) (data : Post)
deriving DecidableEq, Repr

/-- HTTP status and body written by a handler. -/
structure Response where
  status : Nat
  body : Body
deriving DecidableEq, Repr

/-- Call `c.ShouldBindJSON(&req)` for a `CreatePostReq`: `body` is the decoded
JSON (`none` when it does not decode); `Title` and `Content` carry
`binding:"required"`, which rejects the zero value. -/
def bindCreate (body : Option CreatePostReq) : Except Err CreatePostReq :=
  match body with
  | none => .error .bind
  | some req => if req.Title = "" ∨ req.Content = "" then .error .bind else .ok req

/-- Call `c.ShouldBindJSON(&req)` for an `UpdatePostReq`, which has no binding tags. -/
def bindUpdate (body : Option UpdatePostReq) : Except Err UpdatePostReq :=
  match body with
  | none => .error .bind
  | some req => .ok req

/-- Handler of `POST /posts`. -/
def handleCreate (env : Env) (body : Option CreatePostReq) (w : World) : Response × World :=
  match bindCreate body with
  | .error e => (⟨400, .error e.Error⟩, w)
  | .ok req =>
    let r := PostRepo.CreateWithLogTx env req w
    match r.1 with
    | .error e => (⟨500, .error e.Error⟩, r.2)
    | .ok post =>
      let i := ES.IndexDoc env post.ID ⟨post.ID, post.Title, post.Content, post.Tags⟩ r.2
      (⟨201, .post post⟩, i.2)

/-- The cache lookup of `GET /posts/:id`: the post to answer from the cache, if
the lookup succeeded with a non-empty value that decodes. -/
def cachedPost (env : Env) (r : Except Err String) : Option Post :=
  match r with
  | .ok val => if val ≠ "" then env.json.unmarshal val else none
  | .error _ => none

/-- Handler of `GET /posts/:id` (cache-aside read). -/
def handleRead (env : Env) (idStr : String) (w : World) : Response × World :=
  match Atoi idStr with
  | none => (⟨400, .error "invalid id"⟩, w)
  | some id =>
    if id ≤ 0 then (⟨400, .error "invalid id"⟩, w)
    else
      let key := "post:" ++ idStr
      let g := RedisCache.Get env key w
      match cachedPost env g.1 with
      | some p => (⟨200, .read true p⟩, g.2)
      | none =>
        let r := PostRepo.GetByID env.fail id g.2
        match r.1 with
        | .error _ => (⟨404, .error "not found"⟩, r.2)
        | .ok p =>
          let b := (env.json.marshal p).getD ""
          let s := RedisCache.Set env key b r.2
          (⟨200, .read false p⟩, s.2)

/-- Handler of `PUT /posts/:id` (update, then invalidate and re-index). -/
def handleUpdate (env : Env) (idStr : String) (body : Option UpdatePostReq) (w : World) :
    Response × World :=
  match Atoi idStr with
  | none => (⟨400, .error "invalid id"⟩, w)
  | some id =>
    if id ≤ 0 then (⟨400, .error "invalid id"⟩, w)
    else
      match bindUpdate body with
      | .error e => (⟨400, .error e.Error⟩, w)
      | .ok req =>
        let r := PostRepo.Update env.fail id req w
        match r.1 with
        | .error e => (⟨400, .error e.Error⟩, r.2)
        | .ok p =>
          let d := RedisCache.Del env ("post:" ++ idStr) r.2
          let i := ES.IndexDoc env p.ID ⟨p.ID, p.Title, p.Content, p.Tags⟩ d.2
          (⟨200, .post p⟩, i.2)

/-! ## A concrete JSON codec -/

/-- The double quote. -/
def dq : Char := Char.ofNat 34

/-- The backslash. -/
def bsl : Char := Char.ofNat 92

/-- JSON string literal: quotes and backslashes are escaped. -/
def quoteChars : List Char → List Char
  | [] => []
  | c :: cs => if c = dq ∨ c = bsl then bsl :: c :: quoteChars cs else c :: quoteChars cs

/-- JSON text of a string. -/
def jsonString (s : String) : String :=
  String.mk (dq :: quoteChars s.data ++ [dq])

/-- JSON text of an array of strings. -/
def jsonArray (l : List String) : String :=
  "[" ++ ",".intercalate (l.map jsonString) ++ "]"

/-- JSON text of a post, with the field names of `models.Post`; the instant
`created_at` is written as its number. -/
def jsonPost (p : Post) : String :=
  String.mk [Char.ofNat 123] ++ "\"id\":" ++ toString p.ID ++ ",\"title\":" ++ jsonString p.Title
    ++ ",\"content\":" ++ jsonString p.Content ++ ",\"tags\":" ++ jsonArray p.Tags
    ++ ",\"created_at\":" ++ toString p.CreatedAt ++ String.mk [Char.ofNat 125]

/-- Reads the characters of a string literal up to its closing quote. -/
def readQuoted : List Char → Option (List Char × List Char)
  | [] => none
  | c :: cs =>
    if c = dq then some ([], cs)
    else if c = bsl then
      match cs with
      | [] => none
      | d :: ds =>
        match readQuoted ds with
        | some (s, r) => some (d :: s, r)
        | none => none
    else
      match readQuoted cs with
      | some (s, r) => some (c :: s, r)
      | none => none

/-- Reads a string literal. -/
def readString (s : List Char) : Option (String × List Char) :=
  match s with
  | [] => none
  | c :: cs =>
    if c = dq then
      match readQuoted cs with
      | some (t, r) => some (String.mk t, r)
      | none => none
    else none

/-- Reads the elements of a non-empty array of strings up to the closing bracket. -/
def readElems : Nat → List Char → Option (List String × List Char)
  | 0, _ => none
  | fuel + 1, s =>
    match readString s with
    | none => none
    | some (x, ',' :: r) =>
      match readElems fuel r with
      | some (xs, r1) => some (x :: xs, r1)
      | none => none
    | some (x, ']' :: r) => some ([x], r)
    | some _ => none

/-- Reads an array of strings. -/
def readArray (s : List Char) : Option (List String × List Char) :=
  match s with
  | '[' :: ']' :: r => some ([], r)
  | '[' :: r => readElems s.length r
  | _ => none

/-- Reads the JSON text written by `jsonPost`. -/
def readPost (s : String) : Option Post :=
  match dropLit (String.mk [Char.ofNat 123] ++ "\"id\":").data s.data with
  | none => none
  | some r0 =>
    let neg := r0.head? = some '-'
    match readNum (if neg then r0.tail else r0) with
    | none => none
    | some (n, r1) =>
      match dropLit ",\"title\":".data r1 with
      | none => none
      | some r2 =>
        match readString r2 with
        | none => none
        | some (title, r3) =>
          match dropLit ",\"content\":".data r3 with
          | none => none
          | some r4 =>
            match readString r4 with
            | none => none
            | some (content, r5) =>
              match dropLit ",\"tags\":".data r5 with
              | none => none
              | some r6 =>
                match readArray r6 with
                | none => none
                | some (tags, r7) =>
                  match dropLit ",\"created_at\":".data r7 with
                  | none => none
                  | some r8 =>
                    match readNum r8 with
                    | some (t, [c]) =>
                      if c = Char.ofNat 125 then
                        some ⟨if neg then -(n : Int) else (n : Int), title, content, tags, t⟩
                      else none
                    | _ => none

/-- A codec for posts that writes and reads the layout of `jsonPost`. -/
def jsonLite : Codec :=
  ⟨fun p => some (jsonPost p), readPost⟩

/-! ## Specification-side definitions -/

/-- Row after an update as the specification words it: every supplied field
takes the supplied value, every other field keeps its value. -/
def applyReq (req : UpdatePostReq) (p : Post) : Post :=
  { p with
    Title := req.Title.getD p.Title
    Content := req.Content.getD p.Content
    Tags := req.Tags.getD p.Tags }

/-- The supplied columns with their values, in the order title, content, tags. -/
def supplied (req : UpdatePostReq) : List (String × SqlArg) :=
  (match req.Title with
    | some t => [("title", SqlArg.text t)]
    | none => [])
  ++ (match req.Content with
    | some c => [("content", SqlArg.text c)]
    | none => [])
  ++ (match req.Tags with
    | some l => [("tags", SqlArg.textArr l)]
    | none => [])

/-- Assignments `col=$n` for the columns, numbered from `n`. -/
def numbered : List String → Nat → List String
  | [], _ => []
  | c :: cs, n => (c ++ "=$" ++ toString n) :: numbered cs (n + 1)

/-- Statement text the specification describes: exactly the supplied columns,
with placeholders `$1..$k`, and `$(k+1)` for the id. -/
def specSql (req : UpdatePostReq) : String :=
  "UPDATE posts SET " ++ ",".intercalate (numbered ((supplied req).map Prod.fst) 1)
    ++ " WHERE id=$" ++ toString ((supplied req).length + 1)

/-- Arguments the specification describes: the supplied values in order, then the id. -/
def specArgs (id : Int) (req : UpdatePostReq) : List SqlArg :=
  (supplied req).map Prod.snd ++ [SqlArg.int id]

/-- Store after the update of row `id` as the specification words it. -/
def updatedStore (id : Int) (req : UpdatePostReq) (db : Store) : Store :=
  { db with posts := db.posts.map (fun p => if p.ID = id then applyReq req p else p) }

/-- The answer of `GET /posts/:id` built from the Store alone: the row with
`cached:false`, or 404. -/
def storeAnswer (fl : Faults) (id : Int) (w : World) : Response :=
  match (PostRepo.GetByID fl id w).1 with
  | .ok p => ⟨200, .read false p⟩
  | .error _ => ⟨404, .error "not found"⟩

/-! ## Concrete inputs -/

/-- A post with id 1. -/
def postA : Post := ⟨1, "A", "B", ["go"], 5⟩

/-- A world holding `postA` and its log entry, with empty Cache and Index. -/
def worldA : World := ⟨⟨[postA], [⟨"new_post", 1⟩], 2⟩, [], [], []⟩

/-- A world with empty Store, Cache and Index. -/
def worldEmpty : World := ⟨⟨[], [], 1⟩, [], [], []⟩

/-- Environment at instant `now` (milliseconds) with `CACHE_TTL_SECONDS` 300 and
the codec `jsonLite`. -/
def envAt (now : Nat) (fl : Faults) : Env := ⟨now, 300, jsonLite, fl⟩

/-- Only `r.DB.Exec` fails. -/
def execFails : Faults :=
  ⟨⟨false, false, false, false, false, true⟩, ⟨false, false, false, false⟩⟩

/-- Only the SELECT of `GetByID` fails. -/
def selectFails : Faults :=
  ⟨⟨false, false, false, false, true, false⟩, ⟨false, false, false, false⟩⟩

/-- Only the insert into `activity_logs` fails. -/
def insertLogFails : Faults :=
  ⟨⟨false, false, true, false, false, false⟩, ⟨false, false, false, false⟩⟩

/-- The world after `GET /posts/1` on `worldA` at instant 10: the post is cached
under "post:1" until instant 300010. -/
def worldCached : World := (handleRead (envAt 10 Faults.none) "1" worldA).2

/-- The update of the content of a post to "C". -/
def setContentC : UpdatePostReq := ⟨none, some "C", none⟩

/-! ## Lemmas on the repository -/

theorem updateSet_eq_empty (req : UpdatePostReq) :
    (updateSet req).1 = "" ↔ req.Title = none ∧ req.Content = none ∧ req.Tags = none := by
  rcases req with ⟨_ | t, _ | c, _ | l⟩ <;> simp [updateSet] <;> decide

theorem update_sql (req : UpdatePostReq) (h : (updateSet req).1 ≠ "") :
    "UPDATE posts SET " ++ String.mk (updateSet req).1.data.dropLast ++ " WHERE id=$"
      ++ toString (updateSet req).2.2 = specSql req := by
  rcases req with ⟨_ | t, _ | c, _ | l⟩
  · exact absurd rfl h
  all_goals
    simp only [updateSet, specSql, supplied, List.map, List.append, List.nil_append,
      List.cons_append, List.length, numbered]
    decide

theorem update_args (id : Int) (req : UpdatePostReq) :
    (updateSet req).2.1 ++ [SqlArg.int id] = specArgs id req := by
  rcases req with ⟨_ | t, _ | c, _ | l⟩ <;> rfl

theorem execUpdate_of_parse (sql : String) (args : List SqlArg) (db : Store)
    (cols : List (Column × Nat)) (k : Nat) (as : List Assign) (id : Int)
    (hp : parseUpdate sql = some (cols, k)) (hr : resolveAll args cols = some as)
    (hk : placeholder args k = some (SqlArg.int id)) :
    execUpdate sql args db =
      some { db with posts := db.posts.map (fun p => if p.ID = id then applyAll as p else p) } := by
  simp only [execUpdate, hp, hr, hk]

theorem execUpdate_specSql (id : Int) (req : UpdatePostReq) (db : Store)
    (h : (updateSet req).1 ≠ "") :
    execUpdate (specSql req) (specArgs id req) db = some (updatedStore id req db) := by
  rcases req with ⟨_ | t, _ | c, _ | l⟩
  · exact absurd rfl h
  · exact execUpdate_of_parse _ _ db [(Column.tags, 1)] 2 [Assign.tags l] id
      (by simp only [specSql, supplied, List.map, List.append, List.nil_append,
            List.cons_append, List.length, numbered]; decide) rfl rfl
  · exact execUpdate_of_parse _ _ db [(Column.content, 1)] 2 [Assign.content c] id
      (by simp only [specSql, supplied, List.map, List.append, List.nil_append,
            List.cons_append, List.length, numbered]; decide) rfl rfl
  · exact execUpdate_of_parse _ _ db [(Column.content, 1), (Column.tags, 2)] 3
      [Assign.content c, Assign.tags l] id
      (by simp only [specSql, supplied, List.map, List.append, List.nil_append,
            List.cons_append, List.length, numbered]; decide) rfl rfl
  · exact execUpdate_of_parse _ _ db [(Column.title, 1)] 2 [Assign.title t] id
      (by simp only [specSql, supplied, List.map, List.append, List.nil_append,
            List.cons_append, List.length, numbered]; decide) rfl rfl
  · exact execUpdate_of_parse _ _ db [(Column.title, 1), (Column.tags, 2)] 3
      [Assign.title t, Assign.tags l] id
      (by simp only [specSql, supplied, List.map, List.append, List.nil_append,
            List.cons_append, List.length, numbered]; decide) rfl rfl
  · exact execUpdate_of_parse _ _ db [(Column.title, 1), (Column.content, 2)] 3
      [Assign.title t, Assign.content c] id
      (by simp only [specSql, supplied, List.map, List.append, List.nil_append,
            List.cons_append, List.length, numbered]; decide) rfl rfl
  · exact execUpdate_of_parse _ _ db [(Column.title, 1), (Column.content, 2), (Column.tags, 3)] 4
      [Assign.title t, Assign.content c, Assign.tags l] id
      (by simp only [specSql, supplied, List.map, List.append, List.nil_append,
            List.cons_append, List.length, numbered]; decide) rfl rfl

theorem updatedStore_of_missing (id : Int) (req : UpdatePostReq) (db : Store)
    (h : ∀ p ∈ db.posts, p.ID ≠ id) : updatedStore id req db = db := by
  have hm : db.posts.map (fun p => if p.ID = id then applyReq req p else p) = db.posts := by
    conv_rhs => rw [← List.map_id db.posts]
    apply List.map_congr_left
    intro p hp
    simp [h p hp]
  cases db
  simp only [updatedStore] at hm ⊢
  rw [hm]

theorem find_updatedStore (id : Int) (req : UpdatePostReq) (db : Store) :
    (updatedStore id req db).posts.find? (fun p => decide (p.ID = id)) =
      (db.posts.find? (fun p => decide (p.ID = id))).map (applyReq req) := by
  simp only [updatedStore]
  induction db.posts with
  | nil => rfl
  | cons q qs ih =>
    by_cases hq : q.ID = id
    · simp [List.find?, hq, applyReq]
    · simp [List.find?, hq, ih]

/-- What `PostRepo.Update` does once at least one field is supplied. -/
theorem Update_eq (fl : Faults) (id : Int) (req : UpdatePostReq) (w : World)
    (h : (updateSet req).1 ≠ "") :
    PostRepo.Update fl id req w =
      if fl.store.exec then
        (.error (.store "exec"), w.log (.storeExec (specSql req) (specArgs id req)))
      else
        PostRepo.GetByID fl id
          { w.log (.storeExec (specSql req) (specArgs id req)) with
            db := updatedStore id req w.db } := by
  simp only [PostRepo.Update, h, if_false, update_sql req h, update_args, dbExec,
    execUpdate_specSql id req w.db h]
  cases fl.store.exec <;> simp

theorem supplied_iff (req : UpdatePostReq) :
    (req.Title ≠ none ∨ req.Content ≠ none ∨ req.Tags ≠ none) ↔ (updateSet req).1 ≠ "" := by
  have h := updateSet_eq_empty req
  constructor
  · intro hs hc
    obtain ⟨h1, h2, h3⟩ := h.mp hc
    rcases hs with hs | hs | hs
    · exact hs h1
    · exact hs h2
    · exact hs h3
  · intro hs
    by_contra hc
    push_neg at hc
    exact hs (h.mpr hc)

/-- World after a successful `PostRepo.Update`. -/
theorem Update_ok (fl : Faults) (id : Int) (req : UpdatePostReq) (w : World) (old : Post)
    (hne : (updateSet req).1 ≠ "")
    (hold : w.db.posts.find? (fun p => decide (p.ID = id)) = some old)
    (hx : fl.store.exec = false) (hs : fl.store.select = false) :
    PostRepo.Update fl id req w =
      (.ok (applyReq req old),
        ⟨updatedStore id req w.db, w.cache, w.index,
          w.trace ++ [.storeExec (specSql req) (specArgs id req)] ++ [.storeSelect id]⟩) := by
  have hfind := find_updatedStore id req w.db
  rw [hold] at hfind
  rw [Update_eq fl id req w hne]
  simp only [hx, PostRepo.GetByID, World.log, hs, hfind, Option.map]
  rfl

/-- A successful `PostRepo.Update` had no failing call and found the row. -/
theorem Update_ok_inv (fl : Faults) (id : Int) (req : UpdatePostReq) (w : World)
    (p : Post) (w1 : World) (hne : (updateSet req).1 ≠ "")
    (h : PostRepo.Update fl id req w = (.ok p, w1)) :
    fl.store.exec = false ∧ fl.store.select = false ∧
      ∃ old, w.db.posts.find? (fun q => decide (q.ID = id)) = some old := by
  rw [Update_eq fl id req w hne] at h
  cases hx : fl.store.exec
  · cases hs : fl.store.select
    · refine ⟨rfl, rfl, ?_⟩
      cases hf : w.db.posts.find? (fun q => decide (q.ID = id)) with
      | some old => exact ⟨old, rfl⟩
      | none =>
        have hfind := find_updatedStore id req w.db
        rw [hf] at hfind
        simp [hx, hs, PostRepo.GetByID, World.log, hfind] at h
    · simp [hx, hs, PostRepo.GetByID, World.log] at h
  · simp [hx] at h

/-! ## Update: frame, rejection of the empty update, missing post -/

/-- C4: for a post row `old` found under `id` and a request that supplies at least
one of title, content, tags, every successful `PostRepo.Update` returns the post
whose supplied fields take the supplied values and whose other fields, id and
creation instant are those of `old`; rows with another id keep their place and
value, the log table is untouched; the statement sent is the text that sets
exactly the supplied columns with `$1..$k` and `$(k+1)` for the id, bound to the
supplied values in order followed by the id; and the update does succeed when
the two Store calls do not fail. -/
theorem update_touches_only_supplied (fl : Faults) (id : Int) (req : UpdatePostReq)
    (w : World) (old : Post)
    (hreq : req.Title ≠ none ∨ req.Content ≠ none ∨ req.Tags ≠ none)
    (hold : w.db.posts.find? (fun p => decide (p.ID = id)) = some old) :
    (∀ p w1, PostRepo.Update fl id req w = (.ok p, w1) →
      (∀ t, req.Title = some t → p.Title = t) ∧ (req.Title = none → p.Title = old.Title) ∧
      (∀ c, req.Content = some c → p.Content = c) ∧
      (req.Content = none → p.Content = old.Content) ∧
      (∀ l, req.Tags = some l → p.Tags = l) ∧ (req.Tags = none → p.Tags = old.Tags) ∧
      p.ID = old.ID ∧ p.CreatedAt = old.CreatedAt ∧
      w1.db.posts.length = w.db.posts.length ∧
      (∀ (i : Nat) q, w.db.posts[i]? = some q → q.ID ≠ id → w1.db.posts[i]? = some q) ∧
      (∀ (i : Nat) q, w.db.posts[i]? = some q → q.ID = id →
        w1.db.posts[i]? = some (applyReq req q)) ∧
      w1.db.logs = w.db.logs ∧
      w1.trace = w.trace ++ [Call.storeExec (specSql req) (specArgs id req), Call.storeSelect id])
    ∧ (fl.store.exec = false → fl.store.select = false →
        ∃ w1, PostRepo.Update fl id req w = (.ok (applyReq req old), w1)) := by
  have hne := (supplied_iff req).mp hreq
  constructor
  · intro p w1 h
    obtain ⟨hx, hs, old1, hold1⟩ := Update_ok_inv fl id req w p w1 hne h
    rw [hold] at hold1
    cases Option.some.inj hold1
    rw [Update_ok fl id req w old hne hold hx hs] at h
    simp only [Prod.mk.injEq, Except.ok.injEq] at h
    obtain ⟨rfl, rfl⟩ := h
    refine ⟨?_, ?_, ?_, ?_, ?_, ?_, rfl, rfl, ?_, ?_, ?_, rfl, ?_⟩
    · intro t ht; simp [applyReq, ht]
    · intro ht; simp [applyReq, ht]
    · intro c hc; simp [applyReq, hc]
    · intro hc; simp [applyReq, hc]
    · intro l hl; simp [applyReq, hl]
    · intro hl; simp [applyReq, hl]
    · simp [updatedStore]
    · intro i q hq hqid
      simp [updatedStore, hq, hqid]
    · intro i q hq hqid
      simp [updatedStore, hq, hqid]
    · simp
  · intro hx hs
    exact ⟨_, Update_ok fl id req w old hne hold hx hs⟩

/-- C4 at a concrete input: updating only the content of `postA`. -/
theorem update_touches_only_supplied_witness :
    (∀ p w1, PostRepo.Update Faults.none 1 ⟨none, some "C", none⟩ worldA = (.ok p, w1) →
      p.Title = "A" ∧ p.Content = "C" ∧ p.Tags = ["go"] ∧ p.ID = 1 ∧ p.CreatedAt = 5 ∧
      w1.trace = [Call.storeExec "UPDATE posts SET content=$1 WHERE id=$2"
        [SqlArg.text "C", SqlArg.int 1], Call.storeSelect 1])
    ∧ ∃ w1, PostRepo.Update Faults.none 1 ⟨none, some "C", none⟩ worldA =
        (.ok ⟨1, "A", "C", ["go"], 5⟩, w1) := by
  have h := update_touches_only_supplied Faults.none 1 ⟨none, some "C", none⟩ worldA postA
    (Or.inr (Or.inl (by decide))) (by decide)
  refine ⟨?_, h.2 rfl rfl⟩
  intro p w1 hp
  obtain ⟨-, h2, h3, -, -, h6, h7, h8, -, -, -, -, h13⟩ := h.1 p w1 hp
  refine ⟨h2 rfl, h3 "C" rfl, h6 rfl, h7, h8, ?_⟩
  rw [h13]
  decide

/-- C5: an update with title, content and tags all unset is rejected by
`PostRepo.Update` with the error "nothing to update" before any call to the
Store, and the `PUT /posts/:id` handler answers 400 for it whatever the path
parameter is, leaving Store, Cache, Index and the trace of calls as they were. -/
theorem noop_update_rejected (env : Env) (fl : Faults) (id : Int) (idStr : String)
    (w : World) :
    PostRepo.Update fl id ⟨none, none, none⟩ w = (.error Err.nothingToUpdate, w) ∧
    (handleUpdate env idStr (some ⟨none, none, none⟩) w).1.status = 400 ∧
    (handleUpdate env idStr (some ⟨none, none, none⟩) w).2 = w := by
  have hU : ∀ fl id, PostRepo.Update fl id ⟨none, none, none⟩ w =
      (.error Err.nothingToUpdate, w) := by
    intro fl id
    simp [PostRepo.Update, updateSet]
  refine ⟨hU fl id, ?_, ?_⟩
  · unfold handleUpdate
    cases hA : Atoi idStr with
    | none => rfl
    | some n =>
      by_cases hn : n ≤ 0
      · simp [hn]
      · simp [hn, bindUpdate, hU]
  · unfold handleUpdate
    cases hA : Atoi idStr with
    | none => rfl
    | some n =>
      by_cases hn : n ≤ 0
      · simp [hn]
      · simp [hn, bindUpdate, hU]

/-- C6: for an id with no row and a request that supplies at least one field,
`PostRepo.Update` never returns a post and leaves the Store as it was, whatever
calls fail; when the Store calls do not fail the error is `pgx.ErrNoRows`, the
not-found error of the re-read. -/
theorem update_missing_post (fl : Faults) (id : Int) (req : UpdatePostReq) (w : World)
    (hmiss : ∀ p ∈ w.db.posts, p.ID ≠ id)
    (hreq : req.Title ≠ none ∨ req.Content ≠ none ∨ req.Tags ≠ none) :
    (∃ e, (PostRepo.Update fl id req w).1 = .error e) ∧
    (PostRepo.Update fl id req w).2.db = w.db ∧
    (fl.store.exec = false → fl.store.select = false →
      (PostRepo.Update fl id req w).1 = .error Err.noRows) := by
  have hne := (supplied_iff req).mp hreq
  have hdb := updatedStore_of_missing id req w.db hmiss
  have hnone : w.db.posts.find? (fun p => decide (p.ID = id)) = none := by
    rw [List.find?_eq_none]
    intro p hp
    simpa using hmiss p hp
  rw [Update_eq fl id req w hne, hdb]
  cases hx : fl.store.exec <;> cases hs : fl.store.select <;>
    simp [PostRepo.GetByID, World.log, hnone, hx, hs]

/-- C6 at a concrete input: no row has id 7 in `worldA`. -/
theorem update_missing_post_witness :
    (PostRepo.Update Faults.none 7 ⟨some "x", none, none⟩ worldA).1 = .error Err.noRows ∧
    (PostRepo.Update Faults.none 7 ⟨some "x", none, none⟩ worldA).2.db = worldA.db :=
  have h := update_missing_post Faults.none 7 ⟨some "x", none, none⟩ worldA
    (by decide) (Or.inl (by decide))
  ⟨h.2.2 rfl rfl, h.2.1⟩

/-! ## Frame lemmas for the collaborator calls -/

theorem GetByID_world (fl : Faults) (id : Int) (w : World) :
    (PostRepo.GetByID fl id w).2 = w.log (.storeSelect id) := by
  unfold PostRepo.GetByID
  cases fl.store.select
  · cases w.db.posts.find? (fun p => decide (p.ID = id)) <;> rfl
  · rfl

theorem GetByID_ok_id (fl : Faults) (id : Int) (w : World) (p : Post)
    (h : (PostRepo.GetByID fl id w).1 = .ok p) : p.ID = id := by
  unfold PostRepo.GetByID at h
  cases hs : fl.store.select
  · cases hf : w.db.posts.find? (fun p => decide (p.ID = id)) with
    | none => simp [hs, hf] at h
    | some q =>
      simp [hs, hf] at h
      have := List.find?_some hf
      subst h
      simpa using this
  · simp [hs] at h

theorem Get_world (env : Env) (key : String) (w : World) :
    (RedisCache.Get env key w).2 = w.log (.cacheGet key) := by
  unfold RedisCache.Get
  cases env.fail.derived.cacheGet
  · cases w.cache.find? (fun e => decide (e.key = key) && e.live env.now) <;> rfl
  · rfl

theorem Set_db (env : Env) (key val : String) (w : World) :
    (RedisCache.Set env key val w).2.db = w.db := by
  unfold RedisCache.Set
  cases env.fail.derived.cacheSet <;> rfl

theorem Del_db (env : Env) (key : String) (w : World) :
    (RedisCache.Del env key w).2.db = w.db := by
  unfold RedisCache.Del
  cases env.fail.derived.cacheDel <;> rfl

theorem IndexDoc_db (env : Env) (id : Int) (doc : IndexDocument) (w : World) :
    (ES.IndexDoc env id doc w).2.db = w.db := by
  unfold ES.IndexDoc
  cases env.fail.derived.indexDoc <;> rfl

/-! ## Creation: atomicity and validation -/

/-- C3: when the begin, either insert or the commit of `PostRepo.CreateWithLogTx`
fails (in particular the insert into `activity_logs`, or the commit), an error is
returned and the tables `posts` and `activity_logs` hold exactly the rows they
held before; whenever a post is returned, `posts` has gained exactly one row and
`activity_logs` exactly one entry with action "new_post" and the id of that row,
which is the id of the returned post; and a post is returned when no Store call
fails. -/
theorem create_atomic (env : Env) (req : CreatePostReq) (w : World) :
    ((env.fail.store.begin = true ∨ env.fail.store.insertPost = true ∨
        env.fail.store.insertLog = true ∨ env.fail.store.commit = true) →
      (∃ e, (PostRepo.CreateWithLogTx env req w).1 = .error e) ∧
      (PostRepo.CreateWithLogTx env req w).2.db.posts = w.db.posts ∧
      (PostRepo.CreateWithLogTx env req w).2.db.logs = w.db.logs)
    ∧ (∀ p, (PostRepo.CreateWithLogTx env req w).1 = .ok p →
        p.ID = w.db.nextID ∧
        (PostRepo.CreateWithLogTx env req w).2.db.posts =
          w.db.posts ++ [⟨w.db.nextID, req.Title, req.Content, req.Tags, env.now⟩] ∧
        (PostRepo.CreateWithLogTx env req w).2.db.logs =
          w.db.logs ++ [⟨"new_post", w.db.nextID⟩])
    ∧ (env.fail.store.begin = false → env.fail.store.insertPost = false →
        env.fail.store.insertLog = false → env.fail.store.commit = false →
        env.fail.store.select = false →
        ∃ p, (PostRepo.CreateWithLogTx env req w).1 = .ok p) := by
  refine ⟨?_, ?_, ?_⟩
  · intro h
    unfold PostRepo.CreateWithLogTx
    cases hb : env.fail.store.begin
    · cases hi : env.fail.store.insertPost
      · cases hl : env.fail.store.insertLog
        · cases hc : env.fail.store.commit
          · simp [hb, hi, hl, hc] at h
          · simp [World.log, rolledBack]
        · simp [World.log, rolledBack]
      · simp [World.log]
    · simp [World.log]
  · intro p hp
    unfold PostRepo.CreateWithLogTx at hp ⊢
    cases hb : env.fail.store.begin
    · cases hi : env.fail.store.insertPost
      · cases hl : env.fail.store.insertLog
        · cases hc : env.fail.store.commit
          · simp only [hb, hi, hl, hc, Bool.false_eq_true, if_false] at hp ⊢
            refine ⟨GetByID_ok_id _ _ _ _ hp, ?_, ?_⟩
            · rw [GetByID_world]
              simp [World.log, insertLogRow, insertPostRow]
            · rw [GetByID_world]
              simp [World.log, insertLogRow, insertPostRow]
          · simp [hb, hi, hl, hc] at hp
        · simp [hb, hi, hl] at hp
      · simp [hb, hi] at hp
    · simp [hb] at hp
  · intro hb hi hl hc hs
    unfold PostRepo.CreateWithLogTx
    simp only [hb, hi, hl, hc, Bool.false_eq_true, if_false]
    unfold PostRepo.GetByID
    simp [hs, World.log, insertLogRow, insertPostRow, List.find?_append]
    cases List.find? (fun p => decide (p.ID = w.db.nextID)) w.db.posts <;> simp

/-- C3 at a concrete input: the insert into `activity_logs` fails on `worldA`. -/
theorem create_atomic_witness :
    (∃ e, (PostRepo.CreateWithLogTx (envAt 10 insertLogFails) ⟨"T", "C", []⟩ worldA).1
      = .error e) ∧
    (PostRepo.CreateWithLogTx (envAt 10 insertLogFails) ⟨"T", "C", []⟩ worldA).2.db.posts
      = [postA] ∧
    (PostRepo.CreateWithLogTx (envAt 10 insertLogFails) ⟨"T", "C", []⟩ worldA).2.db.logs
      = [⟨"new_post", 1⟩] :=
  (create_atomic (envAt 10 insertLogFails) ⟨"T", "C", []⟩ worldA).1
    (Or.inr (Or.inr (Or.inl rfl)))

/-- C8, the claim as stated fails: `PostRepo.CreateWithLogTx` has no check on the
request; given an empty title and content it inserts the post row and its log
entry and returns the post. -/
theorem create_repo_accepts_empty_title :
    (PostRepo.CreateWithLogTx (envAt 10 Faults.none) ⟨"", "", []⟩ worldEmpty).1
      = .ok ⟨1, "", "", [], 10⟩ ∧
    (PostRepo.CreateWithLogTx (envAt 10 Faults.none) ⟨"", "", []⟩ worldEmpty).2.db
      = ⟨[⟨1, "", "", [], 10⟩], [⟨"new_post", 1⟩], 2⟩ :=
  ⟨rfl, rfl⟩

/-- C8 as amended: the `POST /posts` handler answers 400 to a request whose title
or content is empty and makes no call at all, so Store, Cache and Index are as
they were. -/
theorem create_validation_in_handler (env : Env) (req : CreatePostReq) (w : World)
    (h : req.Title = "" ∨ req.Content = "") :
    (handleCreate env (some req) w).1.status = 400 ∧
    (handleCreate env (some req) w).2 = w := by
  simp [handleCreate, bindCreate, h]

/-- C8 as amended, at a concrete input: an empty title on `worldA`. -/
theorem create_validation_in_handler_witness :
    (handleCreate (envAt 10 Faults.none) (some ⟨"", "C", []⟩) worldA).1.status = 400 ∧
    (handleCreate (envAt 10 Faults.none) (some ⟨"", "C", []⟩) worldA).2 = worldA :=
  create_validation_in_handler (envAt 10 Faults.none) ⟨"", "C", []⟩ worldA (Or.inl rfl)

/-! ## The cache-aside read -/

theorem find_cache_none (now : Nat) (key : String) (cache : List CacheEntry)
    (h : ∀ e ∈ cache, e.key ≠ key) :
    cache.find? (fun e => decide (e.key = key) && e.live now) = none := by
  rw [List.find?_eq_none]
  intro e he
  simp [h e he]

theorem wrap64_of_range (x : Int) (h1 : -9223372036854775808 ≤ x)
    (h2 : x < 9223372036854775808) : wrap64 x = x := by
  unfold wrap64
  omega

/-- The product of `cache.New` wraps in `int64`: 18446744074 seconds become
290448384 nanoseconds. -/
theorem cache_New_wraps : (cache.New 18446744074).TTL = 290448384 := by
  decide

/-- For a configured number of seconds whose nanoseconds fit `int64`, the key
written at `now` expires that many seconds later. -/
theorem expiry_of_seconds (now : Nat) (t : Int) (old : Option Nat) (h1 : 0 < t)
    (h2 : t ≤ 9223372036) :
    (cache.New t).TTL = t * 1000000000 ∧
    expiry now (cache.New t).TTL old = some (now + t.toNat * 1000) := by
  have hw : (cache.New t).TTL = t * 1000000000 := by
    unfold cache.New
    exact wrap64_of_range _ (by omega) (by omega)
  refine ⟨hw, ?_⟩
  rw [hw]
  unfold expiry lifetimeMs
  have h3 : (0 : Int) < t * 1000000000 := by omega
  have h4 : ¬ (t * 1000000000 < 1000000000 ∨ t * 1000000000 % 1000000000 ≠ 0) := by omega
  have h5 : t * 1000000000 / 1000000000 = t := by omega
  simp only [h3, h4, h5, if_true, if_false]

/-- What `GET /posts/:id` does on a miss when the row exists and the calls succeed. -/
theorem handleRead_miss (env : Env) (idStr : String) (id : Int) (w : World) (p : Post)
    (hid : Atoi idStr = some id) (hpos : 0 < id)
    (hrow : w.db.posts.find? (fun q => decide (q.ID = id)) = some p)
    (hmiss : ∀ e ∈ w.cache, e.key ≠ "post:" ++ idStr)
    (hsel : env.fail.store.select = false) (hset : env.fail.derived.cacheSet = false) :
    handleRead env idStr w =
      (⟨200, .read false p⟩,
        ⟨w.db,
          ⟨"post:" ++ idStr, (env.json.marshal p).getD "",
              expiry env.now (cache.New env.ttlSeconds).TTL none⟩ ::
            w.cache.filter (fun e => !decide (e.key = "post:" ++ idStr)),
          w.index,
          w.trace ++ [.cacheGet ("post:" ++ idStr)] ++ [.storeSelect id] ++
            [.cacheSet ("post:" ++ idStr) ((env.json.marshal p).getD "")
              (cache.New env.ttlSeconds).TTL]⟩) := by
  have hc := find_cache_none env.now ("post:" ++ idStr) w.cache hmiss
  unfold handleRead
  simp only [hid, not_le.mpr hpos, if_false]
  have hg : cachedPost env (RedisCache.Get env ("post:" ++ idStr) w).1 = none := by
    unfold RedisCache.Get
    cases env.fail.derived.cacheGet <;> simp [hc, cachedPost]
  simp only [hg, Get_world]
  unfold PostRepo.GetByID RedisCache.Set
  simp [hsel, hset, World.log, hrow, hc]

/-! ## Best-effort side effects -/

theorem handleRead_db (env : Env) (idStr : String) (w : World) :
    (handleRead env idStr w).2.db = w.db := by
  unfold handleRead
  cases Atoi idStr with
  | none => rfl
  | some id =>
    by_cases hle : id ≤ 0
    · simp [hle]
    · simp only [hle, if_false]
      cases cachedPost env (RedisCache.Get env ("post:" ++ idStr) w).1 with
      | some p => simp [Get_world, World.log]
      | none =>
        simp only []
        cases hr : (PostRepo.GetByID env.fail id (RedisCache.Get env ("post:" ++ idStr) w).2).1 with
        | error e => simp [GetByID_world, Get_world, World.log]
        | ok p => simp [Set_db, GetByID_world, Get_world, World.log]

theorem handleRead_fst (env : Env) (idStr : String) (id : Int) (w : World)
    (hid : Atoi idStr = some id) (hpos : 0 < id) :
    (handleRead env idStr w).1 =
      match cachedPost env (RedisCache.Get env ("post:" ++ idStr) w).1 with
      | some p => ⟨200, .read true p⟩
      | none => storeAnswer env.fail id w := by
  unfold handleRead
  simp only [hid, not_le.mpr hpos, if_false]
  cases cachedPost env (RedisCache.Get env ("post:" ++ idStr) w).1 with
  | some p => rfl
  | none =>
    simp only [Get_world, storeAnswer]
    have hg : (PostRepo.GetByID env.fail id (w.log (.cacheGet ("post:" ++ idStr)))).1 =
        (PostRepo.GetByID env.fail id w).1 := by
      unfold PostRepo.GetByID
      cases env.fail.store.select
      · simp only [World.log, Bool.false_eq_true, if_false]
        cases w.db.posts.find? (fun p => decide (p.ID = id)) <;> rfl
      · rfl
    rw [hg]
    cases (PostRepo.GetByID env.fail id w).1 <;> rfl

theorem handleUpdate_fst_db (env : Env) (idStr : String) (body : Option UpdatePostReq)
    (w : World) :
    (handleUpdate env idStr body w).1 =
      (match Atoi idStr with
      | none => ⟨400, .error "invalid id"⟩
      | some id =>
        if id ≤ 0 then ⟨400, .error "invalid id"⟩
        else
          match bindUpdate body with
          | .error e => ⟨400, .error e.Error⟩
          | .ok req =>
            match (PostRepo.Update env.fail id req w).1 with
            | .error e => ⟨400, .error e.Error⟩
            | .ok p => ⟨200, .post p⟩) ∧
    (handleUpdate env idStr body w).2.db =
      (match Atoi idStr with
      | none => w.db
      | some id =>
        if id ≤ 0 then w.db
        else
          match bindUpdate body with
          | .error _ => w.db
          | .ok req => (PostRepo.Update env.fail id req w).2.db) := by
  unfold handleUpdate
  cases Atoi idStr with
  | none => exact ⟨rfl, rfl⟩
  | some id =>
    by_cases hle : id ≤ 0
    · simp [hle]
    · simp only [hle, if_false]
      cases bindUpdate body with
      | error e => exact ⟨rfl, rfl⟩
      | ok req =>
        simp only []
        cases (PostRepo.Update env.fail id req w).1 with
        | error e => exact ⟨rfl, rfl⟩
        | ok p => exact ⟨rfl, by simp [IndexDoc_db, Del_db]⟩

theorem handleCreate_fst_db (env : Env) (body : Option CreatePostReq) (w : World) :
    (handleCreate env body w).1 =
      (match bindCreate body with
      | .error e => ⟨400, .error e.Error⟩
      | .ok req =>
        match (PostRepo.CreateWithLogTx env req w).1 with
        | .error e => ⟨500, .error e.Error⟩
        | .ok p => ⟨201, .post p⟩) ∧
    (handleCreate env body w).2.db =
      (match bindCreate body with
      | .error _ => w.db
      | .ok req => (PostRepo.CreateWithLogTx env req w).2.db) := by
  unfold handleCreate
  cases bindCreate body with
  | error e => exact ⟨rfl, rfl⟩
  | ok req =>
    simp only []
    cases (PostRepo.CreateWithLogTx env req w).1 with
    | error e => exact ⟨rfl, rfl⟩
    | ok p => exact ⟨rfl, by simp [IndexDoc_db]⟩

theorem Get_fst (env : Env) (key : String) (w : World) :
    (RedisCache.Get env key w).1 =
      if env.fail.derived.cacheGet then .error .cache
      else
        match w.cache.find? (fun e => decide (e.key = key) && e.live env.now) with
        | some e => .ok e.val
        | none => .error .redisNil := by
  unfold RedisCache.Get
  cases env.fail.derived.cacheGet
  · simp only [Bool.false_eq_true, if_false]
    cases w.cache.find? (fun e => decide (e.key = key) && e.live env.now) <;> rfl
  · rfl

theorem handleRead_fst_all (env : Env) (idStr : String) (w : World) :
    (handleRead env idStr w).1 =
      match Atoi idStr with
      | none => ⟨400, .error "invalid id"⟩
      | some id =>
        if id ≤ 0 then ⟨400, .error "invalid id"⟩
        else
          match cachedPost env (RedisCache.Get env ("post:" ++ idStr) w).1 with
          | some p => ⟨200, .read true p⟩
          | none => storeAnswer env.fail id w := by
  cases hA : Atoi idStr with
  | none => simp [handleRead, hA]
  | some id =>
    by_cases hle : id ≤ 0
    · simp [handleRead, hA, hle]
    · simp only [hle, if_false]
      exact handleRead_fst env idStr id w hA (not_le.mp hle)

theorem Update_derived (sf : StoreFaults) (d1 d2 : DerivedFaults) (id : Int)
    (req : UpdatePostReq) (w : World) :
    PostRepo.Update ⟨sf, d1⟩ id req w = PostRepo.Update ⟨sf, d2⟩ id req w := by
  simp only [PostRepo.Update, dbExec, PostRepo.GetByID]

theorem Create_derived (now : Nat) (ttl : Int) (js : Codec) (sf : StoreFaults)
    (d1 d2 : DerivedFaults) (req : CreatePostReq) (w : World) :
    PostRepo.CreateWithLogTx ⟨now, ttl, js, ⟨sf, d1⟩⟩ req w =
      PostRepo.CreateWithLogTx ⟨now, ttl, js, ⟨sf, d2⟩⟩ req w := by
  simp only [PostRepo.CreateWithLogTx, PostRepo.GetByID]

/-- C10: runs of a handler that differ only in which calls to the Cache and the
Index fail leave the same Store state (read, update and create); runs that
differ only in whether the Cache write of a read, the Cache delete of an update
or the Index push of an update or a create fails give the same status and body;
and a read whose Cache lookup fails, or returns a value that is empty or does
not decode, answers what the Store alone gives (the row with `cached:false`, or
404), not an error of the Cache. -/
theorem best_effort_side_effects (now : Nat) (ttl : Int) (js : Codec) (sf : StoreFaults)
    (d1 d2 : DerivedFaults) (g s1 s2 l1 l2 i1 i2 : Bool) (idStr : String)
    (ub : Option UpdatePostReq) (cb : Option CreatePostReq) (w : World) :
    (handleRead ⟨now, ttl, js, ⟨sf, d1⟩⟩ idStr w).2.db =
      (handleRead ⟨now, ttl, js, ⟨sf, d2⟩⟩ idStr w).2.db ∧
    (handleUpdate ⟨now, ttl, js, ⟨sf, d1⟩⟩ idStr ub w).2.db =
      (handleUpdate ⟨now, ttl, js, ⟨sf, d2⟩⟩ idStr ub w).2.db ∧
    (handleCreate ⟨now, ttl, js, ⟨sf, d1⟩⟩ cb w).2.db =
      (handleCreate ⟨now, ttl, js, ⟨sf, d2⟩⟩ cb w).2.db ∧
    (handleRead ⟨now, ttl, js, ⟨sf, ⟨g, s1, l1, i1⟩⟩⟩ idStr w).1 =
      (handleRead ⟨now, ttl, js, ⟨sf, ⟨g, s2, l2, i2⟩⟩⟩ idStr w).1 ∧
    (handleUpdate ⟨now, ttl, js, ⟨sf, d1⟩⟩ idStr ub w).1 =
      (handleUpdate ⟨now, ttl, js, ⟨sf, d2⟩⟩ idStr ub w).1 ∧
    (handleCreate ⟨now, ttl, js, ⟨sf, d1⟩⟩ cb w).1 =
      (handleCreate ⟨now, ttl, js, ⟨sf, d2⟩⟩ cb w).1 ∧
    (∀ id, Atoi idStr = some id → 0 < id →
      (d1.cacheGet = true ∨
        ∀ v, (RedisCache.Get ⟨now, ttl, js, ⟨sf, d1⟩⟩ ("post:" ++ idStr) w).1 = .ok v →
          v = "" ∨ js.unmarshal v = none) →
      (handleRead ⟨now, ttl, js, ⟨sf, d1⟩⟩ idStr w).1 = storeAnswer ⟨sf, d1⟩ id w) := by
  refine ⟨?_, ?_, ?_, ?_, ?_, ?_, ?_⟩
  · rw [handleRead_db, handleRead_db]
  · rw [(handleUpdate_fst_db _ _ _ _).2, (handleUpdate_fst_db _ _ _ _).2]
    simp only [Update_derived sf d1 d2]
  · rw [(handleCreate_fst_db _ _ _).2, (handleCreate_fst_db _ _ _).2]
    simp only [Create_derived now ttl js sf d1 d2]
  · rw [handleRead_fst_all, handleRead_fst_all]
    simp only [Get_fst, cachedPost, storeAnswer, PostRepo.GetByID]
  · rw [(handleUpdate_fst_db _ _ _ _).1, (handleUpdate_fst_db _ _ _ _).1]
    simp only [Update_derived sf d1 d2]
  · rw [(handleCreate_fst_db _ _ _).1, (handleCreate_fst_db _ _ _).1]
    simp only [Create_derived now ttl js sf d1 d2]
  · intro id hid hpos h
    rw [handleRead_fst _ idStr id w hid hpos]
    have hc : cachedPost ⟨now, ttl, js, ⟨sf, d1⟩⟩
        (RedisCache.Get ⟨now, ttl, js, ⟨sf, d1⟩⟩ ("post:" ++ idStr) w).1 = none := by
      rcases h with h | h
      · rw [Get_fst]
        simp [h, cachedPost]
      · cases hg : (RedisCache.Get ⟨now, ttl, js, ⟨sf, d1⟩⟩ ("post:" ++ idStr) w).1 with
        | error e => rfl
        | ok v =>
          rcases h v hg with hv | hv
          · simp [cachedPost, hv]
          · simp [cachedPost, hv]
    rw [hc]

/-- C10 at a concrete input: the Cache lookup of `GET /posts/1` fails on `worldA`
and the answer is the row of the Store. -/
theorem best_effort_side_effects_witness :
    (handleRead ⟨10, 300, jsonLite, ⟨Faults.none.store, ⟨true, false, false, false⟩⟩⟩ "1"
      worldA).1 = ⟨200, .read false postA⟩ :=
  (best_effort_side_effects 10 300 jsonLite Faults.none.store ⟨true, false, false, false⟩
    ⟨false, false, false, false⟩ false false false false false false false "1" none none
    worldA).2.2.2.2.2.2 1 (by decide) (by decide) (Or.inl rfl)

/-! ## Miss, hit and expiry -/

/-- C7: for a post `p` found in the Store under `id`, no Cache entry under the
key of the path parameter, and a configured `CACHE_TTL_SECONDS` that is positive
and whose nanoseconds fit `int64`: the first `GET /posts/:id` answers 200 with
`cached:false` and `p`, its calls being the Cache lookup, the SELECT and the
Cache write of the serialized post with a TTL of the configured seconds, and it
leaves under that key the serialized post expiring that many seconds after the
read; a second `GET` with the same path parameter before that instant answers
200 with `cached:true` and the same post, its only call being the Cache lookup
(the Store is not read); from that instant on the entry is no longer served and
the read is answered from the Store with `cached:false`. The serialized post is
assumed non-empty and to decode back to `p`. -/
theorem cache_aside_miss_then_hit (env : Env) (idStr : String) (id : Int)
    (w : World) (p : Post) (s : String)
    (hid : Atoi idStr = some id) (hpos : 0 < id)
    (hrow : w.db.posts.find? (fun q => decide (q.ID = id)) = some p)
    (hmiss : ∀ e ∈ w.cache, e.key ≠ "post:" ++ idStr)
    (hsel : env.fail.store.select = false) (hget : env.fail.derived.cacheGet = false)
    (hset : env.fail.derived.cacheSet = false)
    (hm : env.json.marshal p = some s) (hs : s ≠ "") (hu : env.json.unmarshal s = some p)
    (httl : 0 < env.ttlSeconds) (hfit : env.ttlSeconds ≤ 9223372036) :
    (handleRead env idStr w).1 = ⟨200, .read false p⟩ ∧
    (handleRead env idStr w).2.trace =
      w.trace ++ [Call.cacheGet ("post:" ++ idStr), Call.storeSelect id,
        Call.cacheSet ("post:" ++ idStr) s (env.ttlSeconds * 1000000000)] ∧
    (handleRead env idStr w).2.cache.find? (fun e => decide (e.key = "post:" ++ idStr)) =
      some ⟨"post:" ++ idStr, s, some (env.now + env.ttlSeconds.toNat * 1000)⟩ ∧
    (∀ now2, now2 < env.now + env.ttlSeconds.toNat * 1000 →
      (handleRead { env with now := now2 } idStr (handleRead env idStr w).2).1 =
        ⟨200, .read true p⟩ ∧
      (handleRead { env with now := now2 } idStr (handleRead env idStr w).2).2.trace =
        (handleRead env idStr w).2.trace ++ [Call.cacheGet ("post:" ++ idStr)] ∧
      (handleRead { env with now := now2 } idStr (handleRead env idStr w).2).2.db = w.db) ∧
    (∀ now3, env.now + env.ttlSeconds.toNat * 1000 ≤ now3 →
      (handleRead { env with now := now3 } idStr (handleRead env idStr w).2).1 =
        ⟨200, .read false p⟩) := by
  obtain ⟨hT, hE⟩ := expiry_of_seconds env.now env.ttlSeconds none httl hfit
  rw [handleRead_miss env idStr id w p hid hpos hrow hmiss hsel hset, hm, hE, hT]
  refine ⟨rfl, by simp, by simp, ?_, ?_⟩
  · intro now2 h2
    have hl : CacheEntry.live now2
        ⟨"post:" ++ idStr, s, some (env.now + env.ttlSeconds.toNat * 1000)⟩ = true := by
      simp [CacheEntry.live, h2]
    unfold handleRead
    simp only [hid, not_le.mpr hpos, if_false]
    unfold RedisCache.Get
    simp [hget, hl, cachedPost, hs, hu, World.log]
  · intro now3 h3
    have hl : CacheEntry.live now3
        ⟨"post:" ++ idStr, s, some (env.now + env.ttlSeconds.toNat * 1000)⟩ = false := by
      simp [CacheEntry.live, h3]
    have hrest : (w.cache.filter (fun e => !decide (e.key = "post:" ++ idStr))).find?
        (fun e => decide (e.key = "post:" ++ idStr) && e.live now3) = none := by
      rw [List.find?_eq_none]
      intro e he
      have hk := hmiss e (List.mem_filter.mp he).1
      simp [hk]
    have hc : cachedPost { env with now := now3 }
        (RedisCache.Get { env with now := now3 } ("post:" ++ idStr)
          ⟨w.db,
            ⟨"post:" ++ idStr, s, some (env.now + env.ttlSeconds.toNat * 1000)⟩ ::
              w.cache.filter (fun e => !decide (e.key = "post:" ++ idStr)),
            w.index,
            w.trace ++ [.cacheGet ("post:" ++ idStr)] ++ [.storeSelect id] ++
              [.cacheSet ("post:" ++ idStr) s (env.ttlSeconds * 1000000000)]⟩).1 = none := by
      rw [Get_fst]
      simp [hget, List.find?, hl, hrest, cachedPost]
    rw [handleRead_fst _ idStr id _ hid hpos]
    simp only [Option.getD] at hc ⊢
    rw [hc]
    simp [storeAnswer, PostRepo.GetByID, hsel, hrow]

/-- C7 at a concrete input: `GET /posts/1` on `worldA` at instant 10 with a TTL of
300 seconds, then again at instant 20 (a hit) and at instant 300010 (expired). -/
theorem cache_aside_miss_then_hit_witness :
    (handleRead (envAt 10 Faults.none) "1" worldA).1 = ⟨200, .read false postA⟩ ∧
    (handleRead (envAt 10 Faults.none) "1" worldA).2.trace =
      [Call.cacheGet "post:1", Call.storeSelect 1,
        Call.cacheSet "post:1" (jsonPost postA) 300000000000] ∧
    (handleRead (envAt 10 Faults.none) "1" worldA).2.cache.find?
        (fun e => decide (e.key = "post:1")) =
      some ⟨"post:1", jsonPost postA, some 300010⟩ ∧
    (handleRead (envAt 20 Faults.none) "1" (handleRead (envAt 10 Faults.none) "1" worldA).2).1 =
      ⟨200, .read true postA⟩ ∧
    (handleRead (envAt 300010 Faults.none) "1"
        (handleRead (envAt 10 Faults.none) "1" worldA).2).1 =
      ⟨200, .read false postA⟩ :=
  have h := cache_aside_miss_then_hit (envAt 10 Faults.none) "1" 1 worldA postA
    (jsonPost postA) (by decide) (by decide) (by decide) (by decide) rfl rfl rfl rfl
    (by decide) (by decide) (by decide) (by decide)
  ⟨h.1, h.2.1, h.2.2.1, (h.2.2.2.1 20 (by decide)).1, h.2.2.2.2 300010 (by decide)⟩

/-! ## Cache key, invalidation and the status of a failed update -/

/-- C2: the path parameters "1", "01" and "+1" all parse to the id 1, yet the
read handler looks up and writes the key made of the raw parameter ("post:01")
and the update handler deletes the key made of the raw parameter ("post:+1");
neither is the key "post:1" of the decimal form of the id. -/
theorem cache_key_uses_raw_path_parameter :
    Atoi "1" = some 1 ∧ Atoi "01" = some 1 ∧ Atoi "+1" = some 1 ∧
    (handleRead (envAt 10 Faults.none) "01" worldA).2.trace =
      [Call.cacheGet "post:01", Call.storeSelect 1,
        Call.cacheSet "post:01" (jsonPost postA) 300000000000] ∧
    (handleUpdate (envAt 10 Faults.none) "+1" (some setContentC) worldA).2.trace =
      [Call.storeExec "UPDATE posts SET content=$1 WHERE id=$2"
          [SqlArg.text "C", SqlArg.int 1],
        Call.storeSelect 1, Call.cacheDel "post:+1",
        Call.indexDoc "1" ⟨1, "A", "C", ["go"]⟩] ∧
    (handleRead (envAt 10 Faults.none) "01" worldA).2.cache.find?
      (fun e => decide (e.key = "post:1")) = none := by
  decide

/-- C1: with the post cached under "post:1", `PUT /posts/01` changes the row and
answers 200 but deletes "post:01", so the next `GET /posts/1` within the TTL
answers `cached:true` with the payload from before the update; and when the
UPDATE statement of `PUT /posts/1` succeeds and the re-read fails, the handler
answers 400 without deleting the key, with the same stale answer. -/
theorem stale_read_after_update :
    (handleUpdate (envAt 20 Faults.none) "01" (some setContentC) worldCached).1 =
      ⟨200, .post ⟨1, "A", "C", ["go"], 5⟩⟩ ∧
    (handleUpdate (envAt 20 Faults.none) "01" (some setContentC) worldCached).2.db.posts =
      [⟨1, "A", "C", ["go"], 5⟩] ∧
    (handleRead (envAt 30 Faults.none) "1"
      (handleUpdate (envAt 20 Faults.none) "01" (some setContentC) worldCached).2).1 =
      ⟨200, .read true ⟨1, "A", "B", ["go"], 5⟩⟩ ∧
    (handleUpdate (envAt 20 selectFails) "1" (some setContentC) worldCached).1.status = 400 ∧
    (handleUpdate (envAt 20 selectFails) "1" (some setContentC) worldCached).2.db.posts =
      [⟨1, "A", "C", ["go"], 5⟩] ∧
    (handleRead (envAt 30 Faults.none) "1"
      (handleUpdate (envAt 20 selectFails) "1" (some setContentC) worldCached).2).1 =
      ⟨200, .read true ⟨1, "A", "B", ["go"], 5⟩⟩ := by
  decide

/-- C9: the update handler answers 400 or 200 and nothing else; a failure of the
UPDATE statement itself on an existing post, with a valid id and a body that
supplies a field, is answered 400, and so is an update of a missing post, while
the create handler answers 500 to a failure of its Store call. -/
theorem update_store_error_answers_400 :
    (∀ env idStr body w, (handleUpdate env idStr body w).1.status = 400 ∨
      (handleUpdate env idStr body w).1.status = 200) ∧
    (handleUpdate (envAt 10 execFails) "1" (some setContentC) worldA).1.status = 400 ∧
    (handleUpdate (envAt 10 Faults.none) "7" (some setContentC) worldA).1 =
      ⟨400, .error "no rows in result set"⟩ ∧
    (handleCreate (envAt 10 insertLogFails) (some ⟨"T", "C", []⟩) worldA).1.status = 500 := by
  refine ⟨?_, by decide, by decide, by decide⟩
  intro env idStr body w
  rw [(handleUpdate_fst_db env idStr body w).1]
  cases Atoi idStr with
  | none => exact Or.inl rfl
  | some id =>
    by_cases hle : id ≤ 0
    · simp [hle]
    · simp only [hle, if_false]
      cases bindUpdate body with
      | error e => exact Or.inl rfl
      | ok req =>
        simp only []
        cases (PostRepo.Update env.fail id req w).1 with
        | error e => exact Or.inl rfl
        | ok p => exact Or.inr rfl

end Blog
